import Mathlib

/-
Verification of the toolbox repository: date-format translation, value
providers (cast, time-diff, dictionary), the value-provider registry and
the storage service facade.  Go machine integers are modelled as Int with
explicit two's-complement wrapping where 64-bit overflow could matter;
fallible Go functions return Except; a Go panic is modelled as the left
summand of a Sum.
-/

namespace Toolbox

/-- A Go panic (process abort), as opposed to a returned error value. -/
inductive GoPanic where
| msg (s : String)
deriving DecidableEq

/-- Two's-complement wrap of an Int into the signed 64-bit range, modelling
Go int64 arithmetic overflow. -/
def wrap64 (x : Int) : Int :=
Int.emod (x + 9223372036854775808) 18446744073709551616 - 9223372036854775808

/-- Go integer division truncates toward zero; the divisor is positive in
every use below. -/
def goDiv (a b : Int) : Int :=
if 0 ≤ a then Int.ediv a b else - Int.ediv (- a) b

/-- A Go time.Time value reduced to the components the repository consumes:
whole seconds since the Unix epoch and the nanosecond within the second. -/
structure GoTime where
sec : Int
nsec : Nat
deriving DecidableEq

/-- The zero value of Go time.Time (January 1, year 1 UTC) expressed in Unix
seconds. -/
def goTimeZero : GoTime := ⟨-62135596800, 0⟩

/-- time.Time.Unix: whole seconds since the epoch. -/
def goUnix (t : GoTime) : Int := t.sec

/-- time.Time.UnixNano: nanoseconds since the epoch, computed in int64. -/
def goUnixNano (t : GoTime) : Int := wrap64 (t.sec * 1000000000 + t.nsec)

/-- time.Time.Add: shift a time by a duration given in nanoseconds, keeping
the nanosecond component in [0, 1e9). -/
def addDur (t : GoTime) (d : Int) : GoTime :=
⟨Int.fdiv (t.sec * 1000000000 + (t.nsec : Int) + d) 1000000000,
 (Int.emod (t.sec * 1000000000 + (t.nsec : Int) + d) 1000000000).toNat⟩

/-- A dynamically typed Go interface value of the kinds the providers
exchange.  Go float64 is modelled as an exact rational, adequate here
because the claims only concern conversion success and zero values. -/
inductive Value where
| null
| str (s : String)
| int (n : Int)
| float (q : ℚ)
| bool (b : Bool)
| time (t : GoTime)
deriving DecidableEq

/-- Token-to-layout table of the date-format translator, longest token
first.  Modelled from the spec: the translator itself is not under src/;
the table follows the section 4.1 token list, with the month entries pinned
by TestGetTimeLayout, which asserts that the pattern
yyyy-MM-dd HH:mm:ss z yields the layout 2006-1-02 15:04:05 MST (so MM maps
to the non-padded reference month 1), and with ZZ pinned to the colon-free
numeric offset by TestTimeFormat, whose ZZ layout parses +0000. -/
def tokenTable : List (String × String) :=
[("yyyy", "2006"), ("SSS", "000"), ("yy", "06"), ("MM", "1"), ("dd", "02"),
 ("HH", "15"), ("hh", "03"), ("mm", "04"), ("ss", "05"), ("ZZ", "-0700"),
 ("M", "1"), ("d", "2"), ("z", "MST"), ("Z", "-07:00")]

/-- The longest known token starting at the given scan position: the table
is ordered longest first, so the first prefix hit is the greedy match. -/
def findTok (cs : List Char) : Option (String × String) :=
tokenTable.find? (fun p => p.1.data.isPrefixOf cs)

/-- Scan of the pattern: at each position emit the mapped layout substring
of the longest matching token, or copy the character unchanged.  The fuel
starts at the character count and each step consumes at least one
character, so it never runs out. -/
def translateAux : Nat → List Char → List Char
| 0, _ => []
| _, [] => []
| Nat.succ fuel, c :: rest =>
  match findTok (c :: rest) with
  | some (tok, rep) => rep.data ++ translateAux fuel (List.drop (tok.length - 1) rest)
  | none => c :: translateAux fuel rest

/-- Modelled from the spec: DateFormatToLayout (not under src/, pinned by
the tests in time_format_test.go) converts a token date pattern to the Go
reference layout by greedy longest-match scanning. -/
def DateFormatToLayout (s : String) : String :=
String.mk (translateAux s.data.length s.data)

/-- First value bound to the key in an association list, modelling a Go map
lookup. -/
def assocFind {α : Type} : List (String × α) → String → Option α
| [], _ => none
| (k, v) :: rest, key => if k = key then some v else assocFind rest key

/-- Go map assignment: replace the binding of the key if present, append it
otherwise. -/
def assocUpdate {α : Type} : List (String × α) → String → α → List (String × α)
| [], key, v => [(key, v)]
| (k, w) :: rest, key, v =>
  if k = key then (key, v) :: rest else (k, w) :: assocUpdate rest key v

/-- Modelled from the spec: the date-format settings key constant (its
literal value is not under src/; tests use it only symbolically). -/
def DateFormatKeyword : String := "dateFormat"

/-- Modelled from the spec: the date-layout settings key constant (its
literal value is not under src/; tests use it only symbolically). -/
def DateLayoutKeyword : String := "dateLayout"

/-- Modelled from the spec: GetTimeLayout prefers an explicit layout if
present, else translates the pattern, else returns the empty layout. -/
def GetTimeLayout (settings : List (String × String)) : String :=
match assocFind settings DateLayoutKeyword with
| some layout => layout
| none =>
  match assocFind settings DateFormatKeyword with
  | some pattern => DateFormatToLayout pattern
  | none => ""

/-- Modelled from the spec: HasTimeLayout reports whether either settings
key is present. -/
def HasTimeLayout (settings : List (String × String)) : Bool :=
(assocFind settings DateFormatKeyword).isSome ||
  (assocFind settings DateLayoutKeyword).isSome

/-- A broken-down civil date-time as accumulated by layout-driven parsing,
with the Go time.Parse defaults for absent fields (year 0, month 1, day 1)
and the zone offset in seconds east of UTC. -/
structure CivilTime where
year : Int := 0
month : Nat := 1
day : Nat := 1
hour : Nat := 0
minute : Nat := 0
second : Nat := 0
nanos : Nat := 0
offSec : Int := 0
deriving DecidableEq

/-- Days from the epoch of a proleptic-Gregorian civil date (the standard
era-based algorithm). -/
def daysFromCivil (y m d : Int) : Int :=
let y2 := if m ≤ 2 then y - 1 else y
let era := Int.fdiv y2 400
let yoe := y2 - era * 400
let mp := Int.emod (m + 9) 12
let doy := Int.ediv (153 * mp + 2) 5 + d - 1
let doe := yoe * 365 + Int.ediv yoe 4 - Int.ediv yoe 100 + doy
era * 146097 + doe - 719468

/-- Inverse of daysFromCivil: the civil (year, month, day) of a day count
from the epoch. -/
def civilFromDays (z : Int) : Int × Nat × Nat :=
let z2 := z + 719468
let era := Int.fdiv z2 146097
let doe := (z2 - era * 146097).toNat
let yoe := (doe - doe / 1460 + doe / 36524 - doe / 146096) / 365
let doy := doe - (365 * yoe + yoe / 4 - yoe / 100)
let mp := (5 * doy + 2) / 153
let d := doy - (153 * mp + 2) / 5 + 1
let m := if mp < 10 then mp + 3 else mp - 9
((yoe : Int) + era * 400 + (if m ≤ 2 then 1 else 0), m, d)

/-- Unix seconds of a parsed civil time (date, clock and zone offset). -/
def civilToUnix (ct : CivilTime) : Int :=
daysFromCivil ct.year ct.month ct.day * 86400 +
  ct.hour * 3600 + ct.minute * 60 + ct.second - ct.offSec

/-- Numeric value of a run of decimal digit characters. -/
def digitsToNat (ds : List Char) : Nat :=
ds.foldl (fun a c => a * 10 + (c.toNat - 48)) 0

/-- Exactly n decimal digits from the front of the text, with the rest. -/
def takeFixed (n : Nat) (cs : List Char) : Option (Nat × List Char) :=
if (cs.take n).length = n && (cs.take n).all Char.isDigit then
  some (digitsToNat (cs.take n), cs.drop n)
else none

/-- One or, greedily, two decimal digits from the front of the text, as Go
reads a non-padded numeric field. -/
def takeNum2 (cs : List Char) : Option (Nat × List Char) :=
match cs with
| [] => none
| [c1] => if c1.isDigit then some (c1.toNat - 48, []) else none
| c1 :: c2 :: rest =>
  if c1.isDigit then
    if c2.isDigit then some (digitsToNat [c1, c2], rest)
    else some (c1.toNat - 48, c2 :: rest)
  else none

/-- Modelled from the spec: the host time-parsing primitive (Go time.Parse)
consumed by ParseTime, restricted to the layout placeholders the translator
emits (2006, 06, 1, 2, 02, 15, 03, 04, 05, .000, -0700, -07:00, MST); a
zone name is read as a nonempty run of uppercase letters with offset 0
(UTC), and any other layout character must match the text literally. -/
def parseLoop : List Char → List Char → CivilTime → Option CivilTime
| [], [], ct => some ct
| [], _ :: _, _ => none
| '2' :: '0' :: '0' :: '6' :: lrest, tcs, ct =>
  match takeFixed 4 tcs with
  | some (y, trest) => parseLoop lrest trest { ct with year := (y : Int) }
  | none => none
| '.' :: '0' :: '0' :: '0' :: lrest, tcs, ct =>
  match tcs with
  | '.' :: t1 =>
    (match takeFixed 3 t1 with
     | some (ms, trest) => parseLoop lrest trest { ct with nanos := ms * 1000000 }
     | none => none)
  | _ => none
| '-' :: '0' :: '7' :: ':' :: '0' :: '0' :: lrest, tcs, ct =>
  match tcs with
  | sgn :: h1 :: h2 :: ':' :: m1 :: m2 :: trest =>
    if (sgn = '+' || sgn = '-') && h1.isDigit && h2.isDigit && m1.isDigit && m2.isDigit then
      let mag : Int := (digitsToNat [h1, h2] * 3600 + digitsToNat [m1, m2] * 60 : Nat)
      parseLoop lrest trest { ct with offSec := if sgn = '-' then - mag else mag }
    else none
  | _ => none
| '-' :: '0' :: '7' :: '0' :: '0' :: lrest, tcs, ct =>
  match tcs with
  | sgn :: h1 :: h2 :: m1 :: m2 :: trest =>
    if (sgn = '+' || sgn = '-') && h1.isDigit && h2.isDigit && m1.isDigit && m2.isDigit then
      let mag : Int := (digitsToNat [h1, h2] * 3600 + digitsToNat [m1, m2] * 60 : Nat)
      parseLoop lrest trest { ct with offSec := if sgn = '-' then - mag else mag }
    else none
  | _ => none
| 'M' :: 'S' :: 'T' :: lrest, tcs, ct =>
  let name := tcs.takeWhile Char.isUpper
  if name.isEmpty then none
  else parseLoop lrest (tcs.drop name.length) { ct with offSec := 0 }
| '1' :: '5' :: lrest, tcs, ct =>
  match takeFixed 2 tcs with
  | some (h, trest) => parseLoop lrest trest { ct with hour := h }
  | none => none
| '0' :: '2' :: lrest, tcs, ct =>
  match takeFixed 2 tcs with
  | some (d, trest) => parseLoop lrest trest { ct with day := d }
  | none => none
| '0' :: '3' :: lrest, tcs, ct =>
  match takeFixed 2 tcs with
  | some (h, trest) => parseLoop lrest trest { ct with hour := h }
  | none => none
| '0' :: '4' :: lrest, tcs, ct =>
  match takeFixed 2 tcs with
  | some (m, trest) => parseLoop lrest trest { ct with minute := m }
  | none => none
| '0' :: '5' :: lrest, tcs, ct =>
  match takeFixed 2 tcs with
  | some (s, trest) => parseLoop lrest trest { ct with second := s }
  | none => none
| '0' :: '6' :: lrest, tcs, ct =>
  match takeFixed 2 tcs with
  | some (y, trest) =>
    parseLoop lrest trest { ct with year := if 69 ≤ y then (1900 + y : Int) else (2000 + y : Int) }
  | none => none
| '1' :: lrest, tcs, ct =>
  match takeNum2 tcs with
  | some (m, trest) => parseLoop lrest trest { ct with month := m }
  | none => none
| '2' :: lrest, tcs, ct =>
  match takeNum2 tcs with
  | some (d, trest) => parseLoop lrest trest { ct with day := d }
  | none => none
| l :: lrest, tcs, ct =>
  match tcs with
  | t :: trest => if l = t then parseLoop lrest trest ct else none
  | [] => none

/-- Modelled from the spec: ParseTime parses the text using the layout
derived from the pattern and fails with a parse error if the text does not
conform. -/
def ParseTime (text pattern : String) : Except String GoTime :=
match parseLoop (DateFormatToLayout pattern).data text.data {} with
| some ct => Except.ok ⟨civilToUnix ct, ct.nanos⟩
| none => Except.error ("cannot parse " ++ text ++ " with layout " ++ DateFormatToLayout pattern)

/-- Left-pad a numeral with zeros to the given width. -/
def padNum (w n : Nat) : String :=
String.mk (List.replicate (w - (toString n).length) '0') ++ toString n

/-- The broken-down UTC civil time of a Unix instant. -/
def civilFromUnix (t : GoTime) : CivilTime :=
let days := Int.fdiv t.sec 86400
let sod := (t.sec - days * 86400).toNat
let c := civilFromDays days
{ year := c.1, month := c.2.1, day := c.2.2, hour := sod / 3600,
  minute := sod % 3600 / 60, second := sod % 60, nanos := t.nsec, offSec := 0 }

/-- Modelled from the spec: the host formatting primitive (Go time.Format)
restricted to the layout placeholders the translator emits, rendering the
instant in UTC. -/
def formatLoop : List Char → CivilTime → String
| [], _ => ""
| '2' :: '0' :: '0' :: '6' :: rest, ct => padNum 4 ct.year.toNat ++ formatLoop rest ct
| '.' :: '0' :: '0' :: '0' :: rest, ct => "." ++ padNum 3 (ct.nanos / 1000000) ++ formatLoop rest ct
| '-' :: '0' :: '7' :: ':' :: '0' :: '0' :: rest, ct => "+00:00" ++ formatLoop rest ct
| '-' :: '0' :: '7' :: '0' :: '0' :: rest, ct => "+0000" ++ formatLoop rest ct
| 'M' :: 'S' :: 'T' :: rest, ct => "UTC" ++ formatLoop rest ct
| '1' :: '5' :: rest, ct => padNum 2 ct.hour ++ formatLoop rest ct
| '0' :: '2' :: rest, ct => padNum 2 ct.day ++ formatLoop rest ct
| '0' :: '3' :: rest, ct =>
  padNum 2 (if ct.hour % 12 = 0 then 12 else ct.hour % 12) ++ formatLoop rest ct
| '0' :: '4' :: rest, ct => padNum 2 ct.minute ++ formatLoop rest ct
| '0' :: '5' :: rest, ct => padNum 2 ct.second ++ formatLoop rest ct
| '0' :: '6' :: rest, ct => padNum 2 (ct.year.toNat % 100) ++ formatLoop rest ct
| '1' :: rest, ct => toString ct.month ++ formatLoop rest ct
| '2' :: rest, ct => toString ct.day ++ formatLoop rest ct
| c :: rest, ct => String.singleton c ++ formatLoop rest ct

/-- Format an instant through a Go layout string. -/
def formatWithLayout (layout : String) (t : GoTime) : String :=
formatLoop layout.data (civilFromUnix t)

/-- Character-wise ASCII lowering (Go strings.ToLower on ASCII input),
written over the character list so that it evaluates by reduction. -/
def strToLower (s : String) : String :=
String.mk (s.data.map Char.toLower)

/-- The numeric value of a nonempty run of decimal digits, none otherwise. -/
def digitsToNat? (cs : List Char) : Option Nat :=
if cs.isEmpty || !(cs.all Char.isDigit) then none else some (digitsToNat cs)

/-- Best-effort decimal integer reading (Go strconv-style: optional sign,
then digits), written over the character list so that it evaluates by
reduction. -/
def strToInt? (s : String) : Option Int :=
match s.data with
| '-' :: rest => (digitsToNat? rest).map (fun n => -(n : Int))
| '+' :: rest => (digitsToNat? rest).map (fun n => (n : Int))
| l => (digitsToNat? l).map (fun n => (n : Int))

/-- Modelled from the spec: the toolbox AsString best-effort conversion
(not under src/), rendering any value as text and never failing. -/
def AsString : Value → String
| Value.null => ""
| Value.str s => s
| Value.int n => toString n
| Value.float q => toString q
| Value.bool b => if b then "true" else "false"
| Value.time t => formatWithLayout "2006-1-02 15:04:05" t

/-- Modelled from the spec: the toolbox AsInt best-effort conversion (not
under src/): never fails, invalid input silently becomes zero. -/
def AsInt : Value → Int
| Value.null => 0
| Value.str s => (strToInt? s).getD 0
| Value.int n => n
| Value.float q => goDiv q.num (q.den : Int)
| Value.bool b => if b then 1 else 0
| Value.time t => t.sec

/-- The characters before the first dot and, when a dot is present, those
after it. -/
def splitDot : List Char → List Char × Option (List Char)
| [] => ([], none)
| '.' :: rest => ([], some rest)
| c :: rest =>
  match splitDot rest with
  | (pre, post) => (c :: pre, post)

/-- Best-effort decimal text to rational, zero on any malformed input. -/
def parseFloatQ (s : String) : ℚ :=
match splitDot s.data with
| (a, none) => (((strToInt? (String.mk a)).getD 0 : Int) : ℚ)
| (a, some b) =>
  (match strToInt? (String.mk a), digitsToNat? b with
   | some ia, some nb =>
     (ia : ℚ) + (if ia < 0 then -1 else 1) * (nb : ℚ) / ((10 : ℚ) ^ b.length)
   | _, _ => 0)

/-- Modelled from the spec: the toolbox AsFloat best-effort conversion (not
under src/): never fails, invalid input silently becomes zero. -/
def AsFloat : Value → ℚ
| Value.null => 0
| Value.str s => parseFloatQ s
| Value.int n => (n : ℚ)
| Value.float q => q
| Value.bool b => if b then 1 else 0
| Value.time t => (t.sec : ℚ)

/-- Modelled from the spec: the toolbox AsBoolean best-effort conversion
(not under src/): never fails, invalid input silently becomes false. -/
def AsBoolean : Value → Bool
| Value.null => false
| Value.str s => strToLower s == "true"
| Value.int n => n != 0
| Value.float q => q != 0
| Value.bool b => b
| Value.time _ => false

/-- Modelled from the spec: the toolbox AsTime extraction (not under src/),
yielding the time value carried by the argument; the time-diff provider
feeds it a base time per the spec, so textual parsing is not modelled. -/
def AsTime (v : Value) (_layout : String) : Option GoTime :=
match v with
| Value.time t => some t
| Value.int n => some ⟨n, 0⟩
| _ => none

/-- timeDiffProvider.Get: base time from argument 0 (the literal now, case
insensitively, meaning the current instant, passed here as the now
parameter), a signed amount and unit in arguments 1 and 2, and an optional
output format in argument 3, reproducing the source expression
int(resultTime.Unix()+resultTime.UnixNano()) / 1000000000 (and / 1000000)
for the unix and timestamp formats. -/
def timeDiffGet (now : GoTime) (args : List Value) : Except String Value :=
let base : GoTime :=
  match args with
  | [] => goTimeZero
  | a0 :: _ =>
    if strToLower (AsString a0) = "now" then now
    else
      match AsTime a0 "" with
      | some t => t
      | none => goTimeZero
let deltaNs : Int :=
  match args with
  | _ :: a1 :: a2 :: _ =>
    let amount := AsInt a1
    (match strToLower (AsString a2) with
     | "day" => wrap64 (amount * 24 * 3600000000000)
     | "week" => wrap64 (amount * 24 * 7 * 3600000000000)
     | "hour" => wrap64 (amount * 3600000000000)
     | "min" => wrap64 (amount * 60000000000)
     | "sec" => wrap64 (amount * 1000000000)
     | _ => 0)
  | _ => 0
let format : String :=
  match args with
  | [_, _, _, f] => AsString f
  | _ => ""
let rt := addDur base deltaNs
if format = "unix" then
  Except.ok (Value.int (goDiv (wrap64 (goUnix rt + goUnixNano rt)) 1000000000))
else if format = "timestamp" then
  Except.ok (Value.int (goDiv (wrap64 (goUnix rt + goUnixNano rt)) 1000000))
else if 0 < format.length then
  Except.ok (Value.str (formatWithLayout (DateFormatToLayout format) rt))
else Except.ok (Value.time rt)

/-- castedValueProvider.Get: argument 0 is type-asserted to a string (a
non-string panics), fewer than two arguments is an error, the time target
needs exactly three arguments and delegates to ParseTime, and the other
targets delegate to the never-failing As conversions. -/
def castedGet (args : List Value) : Sum GoPanic (Except String Value) :=
match args with
| [] => Sum.inl (GoPanic.msg "runtime error: index out of range")
| a0 :: rest =>
  match a0 with
  | Value.str key =>
    Sum.inr
      (match rest with
       | [] =>
         Except.error ("failed to cast to " ++ key ++
           " due to invalid number of arguments, Wanted 2 but had:1")
       | a1 :: rest2 =>
         match key with
         | "time" =>
           (match rest2 with
            | [a2] =>
              (match ParseTime (AsString a1) (AsString a2) with
               | Except.ok t => Except.ok (Value.time t)
               | Except.error e =>
                 Except.error ("failed to cast to time " ++ AsString a1 ++ " due to " ++ e))
            | _ =>
              Except.error ("failed to cast to time due to invalid number of arguments expected 2, but had " ++
                toString rest.length))
         | "int" => Except.ok (Value.int (AsInt a1))
         | "float" => Except.ok (Value.float (AsFloat a1))
         | "bool" => Except.ok (Value.bool (AsBoolean a1))
         | "string" => Except.ok (Value.str (AsString a1))
         | _ => Except.error ("failed to cast to " ++ key ++ " - unsupported type"))
  | _ => Sum.inl (GoPanic.msg "interface conversion: interface {} is not string")

/-- MapDictionary: the string-keyed map backing the Dictionary interface. -/
def MapDictionary : Type := List (String × Value)

/-- MapDictionary.Get: the bound value, or the not-found error. -/
def dictGet (d : MapDictionary) (name : String) : Except String Value :=
match assocFind d name with
| some v => Except.ok v
| none => Except.error ("failed to lookup: " ++ name)

/-- MapDictionary.Exists: whether the key is bound. -/
def dictExists (d : MapDictionary) (name : String) : Bool :=
(assocFind d name).isSome

/-- dictionaryProvider.Get: zero arguments is an error; otherwise argument
0 is the key, the Dictionary fetched from the context under the configured
key is passed here as the parameter d, a single-argument miss is the soft
null, and every other case is the Dictionary lookup itself. -/
def dictionaryProviderGet (d : MapDictionary) (args : List Value) : Except String Value :=
match args with
| [] => Except.error "Expected at least one argument but had 0"
| a0 :: rest =>
  let key := AsString a0
  if rest.isEmpty && !(dictExists d key) then Except.ok Value.null
  else dictGet d key

/-- valueProviderRegistryImpl: a name-keyed map of providers, generic in
the provider type. -/
structure VPRegistry (α : Type) where
registry : List (String × α)

/-- valueProviderRegistryImpl.Register: insert or overwrite. -/
def vprRegister {α : Type} (r : VPRegistry α) (name : String) (p : α) : VPRegistry α :=
⟨assocUpdate r.registry name p⟩

/-- valueProviderRegistryImpl.Contains. -/
def vprContains {α : Type} (r : VPRegistry α) (name : String) : Bool :=
(assocFind r.registry name).isSome

/-- valueProviderRegistryImpl.Names. -/
def vprNames {α : Type} (r : VPRegistry α) : List String :=
r.registry.map Prod.fst

/-- valueProviderRegistryImpl.Get: the provider, or a panic (not an error
return) when the name is absent. -/
def vprGet {α : Type} (r : VPRegistry α) (name : String) : Sum GoPanic α :=
match assocFind r.registry name with
| some p => Sum.inr p
| none => Sum.inl (GoPanic.msg ("failed to lookup name: " ++ name))

/-- Equality of provider results is decidable, letting concrete runs be
checked by evaluation. -/
instance : DecidableEq (Except String Value) :=
fun a b =>
  match a, b with
  | Except.ok x, Except.ok y =>
    match decEq x y with
    | isTrue h => isTrue (by rw [h])
    | isFalse h => isFalse (fun hh => h (Except.ok.inj hh))
  | Except.error x, Except.error y =>
    match decEq x y with
    | isTrue h => isTrue (by rw [h])
    | isFalse h => isFalse (fun hh => h (Except.error.inj hh))
  | Except.ok _, Except.error _ => isFalse (fun hh => Except.noConfusion hh)
  | Except.error _, Except.ok _ => isFalse (fun hh => Except.noConfusion hh)

/-- A storage object, identified by its URL as the facade consumes it. -/
structure StObj where
url : String
deriving DecidableEq

/-- A storage backend: the per-scheme service the facade delegates to, with
each operation modelled as a pure function and Close as the result of its
one permitted call. -/
structure Backend where
listB : String → Except String (List StObj)
existsB : String → Except String Bool
objectB : String → Except String StObj
downloadB : StObj → Except String String
uploadB : String → String → Except String Unit
deleteB : StObj → Except String Unit
closeB : Except String Unit

/-- storageService: the scheme-keyed backend registry. -/
structure StorageSvc where
registry : List (String × Backend)

/-- Scheme extraction of Go net/url.Parse (its getscheme loop, the only
part of URL parsing the facade consumes): ASCII letters then letters,
digits, plus, minus or dot up to a colon; a leading colon is the missing
protocol scheme error; a leading digit or any other character means no
scheme. -/
def getSchemeAux : List Char → List Char → Except String String
| _, [] => Except.ok ""
| acc, c :: rest =>
  if c.isAlpha then getSchemeAux (acc ++ [c]) rest
  else if c.isDigit || c = '+' || c = '-' || c = '.' then
    if acc.isEmpty then Except.ok "" else getSchemeAux (acc ++ [c]) rest
  else if c = ':' then
    if acc.isEmpty then Except.error "missing protocol scheme" else Except.ok (String.mk acc)
  else Except.ok ""

/-- The scheme of a URL, or the URL parse error. -/
def getScheme (URL : String) : Except String String :=
getSchemeAux [] URL.data

/-- storageService.getServiceForSchema: parse the URL, then look the scheme
up in the registry, failing with the scheme-lookup error when absent. -/
def getServiceForSchema (s : StorageSvc) (URL : String) : Except String Backend :=
match getScheme URL with
| Except.error e => Except.error e
| Except.ok scheme =>
  match assocFind s.registry scheme with
  | some b => Except.ok b
  | none => Except.error ("failed to lookup url schema " ++ scheme ++ " in " ++ URL)

/-- storageService.List, paired with the trace of delegated backend calls
(empty exactly when no backend I/O happened). -/
def svcList (s : StorageSvc) (URL : String) : Except String (List StObj) × List String :=
match getServiceForSchema s URL with
| Except.error e => (Except.error e, [])
| Except.ok b => (b.listB URL, ["List"])

/-- storageService.Exists, with its delegation trace. -/
def svcExists (s : StorageSvc) (URL : String) : Except String Bool × List String :=
match getServiceForSchema s URL with
| Except.error e => (Except.error e, [])
| Except.ok b => (b.existsB URL, ["Exists"])

/-- storageService.StorageObject, with its delegation trace. -/
def svcStorageObject (s : StorageSvc) (URL : String) : Except String StObj × List String :=
match getServiceForSchema s URL with
| Except.error e => (Except.error e, [])
| Except.ok b => (b.objectB URL, ["StorageObject"])

/-- storageService.Download: the scheme comes from the object's URL. -/
def svcDownload (s : StorageSvc) (obj : StObj) : Except String String × List String :=
match getServiceForSchema s obj.url with
| Except.error e => (Except.error e, [])
| Except.ok b => (b.downloadB obj, ["Download"])

/-- storageService.Upload, with its delegation trace. -/
def svcUpload (s : StorageSvc) (URL : String) (content : String) : Except String Unit × List String :=
match getServiceForSchema s URL with
| Except.error e => (Except.error e, [])
| Except.ok b => (b.uploadB URL content, ["Upload"])

/-- storageService.Delete: the scheme comes from the object's URL. -/
def svcDelete (s : StorageSvc) (obj : StObj) : Except String Unit × List String :=
match getServiceForSchema s obj.url with
| Except.error e => (Except.error e, [])
| Except.ok b => (b.deleteB obj, ["Delete"])

/-- The loop of storageService.Close over the registry: close each backend
in turn, stopping at the first error; the second component records which
backends had Close called. -/
def closeList : List (String × Backend) → Except String Unit × List String
| [] => (Except.ok (), [])
| (k, b) :: rest =>
  match b.closeB with
  | Except.error e => (Except.error e, [k])
  | Except.ok _ =>
    ((closeList rest).1, k :: (closeList rest).2)

/-- storageService.Close. -/
def svcClose (s : StorageSvc) : Except String Unit × List String :=
closeList s.registry

/-- storageService.Register: insert or replace the scheme's backend; the
returned error is always nil. -/
def svcRegister (s : StorageSvc) (scheme : String) (b : Backend) : StorageSvc × Option String :=
(⟨assocUpdate s.registry scheme b⟩, none)

/-- Looking up a key right after updating it yields the updated value. -/
theorem assocFind_update_self {α : Type} (l : List (String × α)) (k : String) (v : α) :
assocFind (assocUpdate l k v) k = some v := by
induction l with
| nil => simp [assocUpdate, assocFind]
| cons hd tl ih =>
  obtain ⟨k0, w0⟩ := hd
  by_cases h : k0 = k
  · simp [assocUpdate, h, assocFind]
  · simp [assocUpdate, h, assocFind, ih]

/-- Updating one key leaves lookups of a different key unchanged. -/
theorem assocFind_update_other {α : Type} (l : List (String × α)) (k k2 : String) (v : α)
(h : k2 ≠ k) : assocFind (assocUpdate l k2 v) k = assocFind l k := by
induction l with
| nil => simp [assocUpdate, assocFind, h]
| cons hd tl ih =>
  obtain ⟨k0, w0⟩ := hd
  by_cases h0 : k0 = k2
  · subst h0
    simp [assocUpdate, assocFind, h]
  · by_cases h1 : k0 = k
    · simp [assocUpdate, assocFind, h0, h1, Ne.symm h]
    · simp [assocUpdate, assocFind, h0, h1, ih]

/-- The close loop succeeds exactly when every registered backend closes
successfully. -/
theorem closeList_ok_iff (reg : List (String × Backend)) :
(closeList reg).1 = Except.ok () ↔ ∀ p ∈ reg, p.2.closeB = Except.ok () := by
induction reg with
| nil => simp [closeList]
| cons hd tl ih =>
  obtain ⟨k, b⟩ := hd
  cases hcb : b.closeB with
  | error e =>
    simp only [closeList, hcb]
    constructor
    · intro h
      exact absurd h (by simp)
    · intro h
      have := h (k, b) (List.mem_cons_self _ _)
      simp [hcb] at this
  | ok u =>
    cases u
    simp only [closeList, hcb]
    constructor
    · intro h p hp
      rcases List.mem_cons.mp hp with rfl | hp2
      · exact hcb
      · exact (ih.mp h) p hp2
    · intro h
      exact ih.mpr (fun p hp => h p (List.mem_cons_of_mem _ hp))

/-- When the backends before a failing one all close successfully, the
close loop returns that backend's error and calls Close only on the
preceding backends and the failing one. -/
theorem closeList_first_error (pre : List (String × Backend)) (k : String) (b : Backend)
(post : List (String × Backend)) (e : String)
(hpre : ∀ p ∈ pre, p.2.closeB = Except.ok ()) (hb : b.closeB = Except.error e) :
closeList (pre ++ (k, b) :: post) = (Except.error e, pre.map Prod.fst ++ [k]) := by
induction pre with
| nil => simp [closeList, hb]
| cons hd tl ih =>
  obtain ⟨k0, b0⟩ := hd
  have h0 : b0.closeB = Except.ok () := hpre (k0, b0) (List.mem_cons_self _ _)
  have ih2 := ih (fun p hp => hpre p (List.mem_cons_of_mem _ hp))
  simp [closeList, h0, ih2]

/-- The close trace is a sublist of the registered schemes. -/
theorem closeList_trace_sublist (reg : List (String × Backend)) :
List.Sublist (closeList reg).2 (reg.map Prod.fst) := by
induction reg with
| nil => simp [closeList]
| cons hd tl ih =>
  obtain ⟨k, b⟩ := hd
  cases hcb : b.closeB with
  | error e =>
    simp only [closeList, hcb, List.map_cons]
    exact List.Sublist.cons₂ _ (List.nil_sublist _)
  | ok u =>
    cases u
    simp only [closeList, hcb, List.map_cons]
    exact List.Sublist.cons₂ _ ih

/-- Claim C1 (code-bug evidence): the time-difference provider's unix and
timestamp formats do not yield whole seconds and milliseconds since the
epoch.  At the reachable base time 2017-11-04T22:29:33Z (Unix second
1509834573) with a zero delta, the source expression
int(resultTime.Unix()+resultTime.UnixNano())/1000000000 returns
1509834574, not the 1509834573 whole seconds the spec states, and the
timestamp variant returns 1509834574509, not 1509834573000 milliseconds. -/
theorem timeDiff_unix_timestamp_divergence :
timeDiffGet ⟨0, 0⟩ [Value.time ⟨1509834573, 0⟩, Value.int 0, Value.str "sec", Value.str "unix"]
    = Except.ok (Value.int 1509834574) ∧
timeDiffGet ⟨0, 0⟩ [Value.time ⟨1509834573, 0⟩, Value.int 0, Value.str "sec", Value.str "timestamp"]
    = Except.ok (Value.int 1509834574509) ∧
addDur ⟨1509834573, 0⟩ 0 = ⟨1509834573, 0⟩ ∧
goUnix ⟨1509834573, 0⟩ = 1509834573 ∧
(1509834574 : Int) ≠ 1509834573 ∧ (1509834574509 : Int) ≠ 1509834573000 :=
⟨by decide, by decide, by decide, rfl, by decide, by decide⟩

/-- Claim C2 (counterexample): invoking the cast provider with only the
type-name argument does not return the zero value with no error; the
source rejects fewer than two arguments with an argument-count error. -/
theorem casted_absent_value_is_error :
castedGet [Value.str "int"]
    = Sum.inr (Except.error "failed to cast to int due to invalid number of arguments, Wanted 2 but had:1") ∧
(Except.error "failed to cast to int due to invalid number of arguments, Wanted 2 but had:1" : Except String Value)
    ≠ Except.ok (Value.int 0) :=
⟨rfl, by decide⟩

/-- Claim C2 (amended): for the non-time targets int, float, bool and
string, the cast provider never errors once a value argument is present,
and an unparseable value yields the target's zero value; with the value
argument absent it returns an argument-count error instead of the zero
value. -/
theorem casted_nontime_amended :
∀ (key : String) (a1 : Value) (rest2 : List Value),
  key = "int" ∨ key = "float" ∨ key = "bool" ∨ key = "string" →
  (∃ v : Value, castedGet (Value.str key :: a1 :: rest2) = Sum.inr (Except.ok v)) ∧
  castedGet [Value.str key]
      = Sum.inr (Except.error ("failed to cast to " ++ key ++
          " due to invalid number of arguments, Wanted 2 but had:1")) ∧
  castedGet [Value.str "int", Value.str "abc"] = Sum.inr (Except.ok (Value.int 0)) := by
rintro key a1 rest2 (rfl | rfl | rfl | rfl)
· exact ⟨⟨Value.int (AsInt a1), rfl⟩, rfl, by decide⟩
· exact ⟨⟨Value.float (AsFloat a1), rfl⟩, rfl, by decide⟩
· exact ⟨⟨Value.bool (AsBoolean a1), rfl⟩, rfl, by decide⟩
· exact ⟨⟨Value.str (AsString a1), rfl⟩, rfl, by decide⟩

/-- Witness for the amended C2 at the concrete input ("int", "abc"). -/
theorem casted_nontime_amended_witness :
(∃ v : Value, castedGet [Value.str "int", Value.str "abc"] = Sum.inr (Except.ok v)) ∧
castedGet [Value.str "int"]
    = Sum.inr (Except.error ("failed to cast to int due to invalid number of arguments, Wanted 2 but had:1")) :=
⟨(casted_nontime_amended "int" (Value.str "abc") [] (Or.inl rfl)).1,
 (casted_nontime_amended "int" (Value.str "abc") [] (Or.inl rfl)).2.1⟩

/-- Claim C3 (counterexample): the layout produced from the pattern
yyyy-MM-dd HH:mm:ss z is 2006-1-02 15:04:05 MST, exactly as the
repository's TestGetTimeLayout asserts: it carries the non-padded month
placeholder 1 for MM, not the padded 01 the claim states. -/
theorem month_token_not_padded :
DateFormatToLayout "yyyy-MM-dd HH:mm:ss z" = "2006-1-02 15:04:05 MST" ∧
DateFormatToLayout "yyyy-MM-dd HH:mm:ss z" ≠ "2006-01-02 15:04:05 MST" :=
⟨rfl, by decide⟩

/-- Claim C3 (amended): the translator maps both MM and M to the
non-padded reference month numeral 1, so the layout produced from
yyyy-MM-dd HH:mm:ss z carries the non-padded month placeholder, matching
the layout TestGetTimeLayout asserts; GetTimeLayout translates a pattern
under the date-format key and returns a configured layout verbatim. -/
theorem month_token_amended :
DateFormatToLayout "MM" = "1" ∧
DateFormatToLayout "M" = "1" ∧
DateFormatToLayout "yyyy-MM-dd HH:mm:ss z" = "2006-1-02 15:04:05 MST" ∧
GetTimeLayout [(DateFormatKeyword, "yyyy-MM-dd HH:mm:ss z")] = "2006-1-02 15:04:05 MST" ∧
GetTimeLayout [(DateLayoutKeyword, "2006-1-02 15:04:05 MST")] = "2006-1-02 15:04:05 MST" :=
⟨rfl, rfl, rfl, rfl, rfl⟩

/-- Claim C4: scanning is greedy longest-match: at any scan position
starting with ZZ the matched token is ZZ (not Z), and at any position
starting with MM it is MM (not M); consequently the pattern
yyyy-MM-dd HH:mm:ss.SSS ZZ translates to 2006-1-02 15:04:05.000 -0700
(neither the double-Z nor the double-M mistranslation), and the text
2017-11-04 22:29:33.363 +0000 parses under that layout to the instant
with Unix second 1509834573, as TestTimeFormat asserts. -/
theorem greedy_longest_match :
(∀ cs : List Char, findTok ('Z' :: 'Z' :: cs) = some ("ZZ", "-0700")) ∧
(∀ cs : List Char, findTok ('M' :: 'M' :: cs) = some ("MM", "1")) ∧
DateFormatToLayout "yyyy-MM-dd HH:mm:ss.SSS ZZ" = "2006-1-02 15:04:05.000 -0700" ∧
DateFormatToLayout "yyyy-MM-dd HH:mm:ss.SSS ZZ" ≠ "2006-1-02 15:04:05.000 -07:00-07:00" ∧
DateFormatToLayout "yyyy-MM-dd HH:mm:ss.SSS ZZ" ≠ "2006-11-02 15:04:05.000 -0700" ∧
ParseTime "2017-11-04 22:29:33.363 +0000" "yyyy-MM-dd HH:mm:ss.SSS ZZ"
    = Except.ok ⟨1509834573, 363000000⟩ :=
⟨fun cs => by simp [findTok, tokenTable, List.find?, List.isPrefixOf],
 fun cs => by simp [findTok, tokenTable, List.find?, List.isPrefixOf],
 rfl, by decide, by decide, rfl⟩

/-- Claim C5: with the dictionary fetched from the context, a
single-argument lookup of an absent key is the soft miss (null value and
no error), while a lookup with further arguments propagates the
dictionary's not-found error, which is exactly the MapDictionary Get
result. -/
theorem dictionary_soft_miss :
∀ (d : MapDictionary) (a0 : Value) (rest : List Value),
  assocFind d (AsString a0) = none →
  dictionaryProviderGet d [a0] = Except.ok Value.null ∧
  (rest ≠ [] →
    dictionaryProviderGet d (a0 :: rest)
        = Except.error ("failed to lookup: " ++ AsString a0) ∧
    dictionaryProviderGet d (a0 :: rest) = dictGet d (AsString a0)) := by
intro d a0 rest h
constructor
· simp [dictionaryProviderGet, dictExists, h]
· intro hr
  have hre : rest.isEmpty = false := by
    cases rest with
    | nil => exact absurd rfl hr
    | cons x xs => rfl
  constructor
  · simp [dictionaryProviderGet, hre, dictGet, h]
  · simp [dictionaryProviderGet, hre]

/-- Witness for C5: an absent key x in a one-entry dictionary, looked up
with one and with two arguments. -/
theorem dictionary_soft_miss_witness :
dictionaryProviderGet [("k", Value.int 3)] [Value.str "x"] = Except.ok Value.null ∧
dictionaryProviderGet [("k", Value.int 3)] [Value.str "x", Value.int 1]
    = Except.error "failed to lookup: x" := by
have h := dictionary_soft_miss [("k", Value.int 3)] (Value.str "x") [Value.int 1] rfl
exact ⟨h.1, (h.2 (by simp)).1⟩

/-- Claim C10: the dictionary provider invoked with zero arguments returns
the expected-at-least-one-argument error for every dictionary, so no
lookup is performed and neither a null value nor a crash results. -/
theorem dictionary_zero_args_error :
∀ d : MapDictionary,
  dictionaryProviderGet d [] = Except.error "Expected at least one argument but had 0" :=
fun _ => rfl

/-- Claim C6: every facade operation first resolves the URL's scheme: when
the scheme has no registered backend the operation returns the
scheme-lookup error with an empty delegation trace (no backend invoked, no
I/O), and when a backend is registered the operation returns exactly that
backend's result for the same arguments, with a single delegated call. -/
theorem storage_dispatch :
∀ (s : StorageSvc) (URL content : String) (obj : StObj),
  (∀ scheme, getScheme URL = Except.ok scheme → assocFind s.registry scheme = none →
    getServiceForSchema s URL
        = Except.error ("failed to lookup url schema " ++ scheme ++ " in " ++ URL)) ∧
  (∀ e, getServiceForSchema s URL = Except.error e →
    svcList s URL = (Except.error e, []) ∧
    svcExists s URL = (Except.error e, []) ∧
    svcStorageObject s URL = (Except.error e, []) ∧
    svcUpload s URL content = (Except.error e, [])) ∧
  (∀ e, getServiceForSchema s obj.url = Except.error e →
    svcDownload s obj = (Except.error e, []) ∧
    svcDelete s obj = (Except.error e, [])) ∧
  (∀ b, getServiceForSchema s URL = Except.ok b →
    svcList s URL = (b.listB URL, ["List"]) ∧
    svcExists s URL = (b.existsB URL, ["Exists"]) ∧
    svcStorageObject s URL = (b.objectB URL, ["StorageObject"]) ∧
    svcUpload s URL content = (b.uploadB URL content, ["Upload"])) ∧
  (∀ b, getServiceForSchema s obj.url = Except.ok b →
    svcDownload s obj = (b.downloadB obj, ["Download"]) ∧
    svcDelete s obj = (b.deleteB obj, ["Delete"])) := by
intro s URL content obj
refine ⟨?_, ?_, ?_, ?_, ?_⟩
· intro scheme h1 h2
  simp [getServiceForSchema, h1, h2]
· intro e h
  exact ⟨by simp [svcList, h], by simp [svcExists, h],
         by simp [svcStorageObject, h], by simp [svcUpload, h]⟩
· intro e h
  exact ⟨by simp [svcDownload, h], by simp [svcDelete, h]⟩
· intro b h
  exact ⟨by simp [svcList, h], by simp [svcExists, h],
         by simp [svcStorageObject, h], by simp [svcUpload, h]⟩
· intro b h
  exact ⟨by simp [svcDownload, h], by simp [svcDelete, h]⟩

/-- A concrete in-memory backend used to witness the storage theorems. -/
def memBackend : Backend :=
⟨fun _ => Except.ok [], fun _ => Except.ok true, fun u => Except.ok ⟨u⟩,
 fun _ => Except.ok "content", fun _ _ => Except.ok (), fun _ => Except.ok (),
 Except.ok ()⟩

/-- Witness for C6: with only the mem scheme registered, an ftp URL fails
with the scheme-lookup error and no delegation, while a mem URL returns
the backend's own results. -/
theorem storage_dispatch_witness :
svcList ⟨[("mem", memBackend)]⟩ "ftp://h/p"
    = (Except.error "failed to lookup url schema ftp in ftp://h/p", []) ∧
svcList ⟨[("mem", memBackend)]⟩ "mem://x" = (memBackend.listB "mem://x", ["List"]) ∧
svcDownload ⟨[("mem", memBackend)]⟩ ⟨"mem://x"⟩
    = (memBackend.downloadB ⟨"mem://x"⟩, ["Download"]) := by
have h1 := storage_dispatch ⟨[("mem", memBackend)]⟩ "ftp://h/p" "" ⟨"mem://x"⟩
have h2 := storage_dispatch ⟨[("mem", memBackend)]⟩ "mem://x" "" ⟨"mem://x"⟩
exact ⟨(h1.2.1 _ rfl).1, (h2.2.2.2.1 memBackend rfl).1, (h2.2.2.2.2 memBackend rfl).1⟩

/-- Claim C7: Close walks the registered backends in order, calling each
backend's Close at most once; it returns nil exactly when every backend
closes successfully, and on the first failure it returns that error with
the backends after the failing one left untouched (the trace stops at the
failing backend). -/
theorem storage_close_semantics :
∀ s : StorageSvc,
  ((svcClose s).1 = Except.ok () ↔ ∀ p ∈ s.registry, p.2.closeB = Except.ok ()) ∧
  (∀ pre k b post e, s.registry = pre ++ (k, b) :: post →
    (∀ p ∈ pre, p.2.closeB = Except.ok ()) → b.closeB = Except.error e →
    (svcClose s).1 = Except.error e ∧ (svcClose s).2 = pre.map Prod.fst ++ [k]) ∧
  (∀ k, (s.registry.map Prod.fst).Nodup → ((svcClose s).2).count k ≤ 1) := by
intro s
refine ⟨closeList_ok_iff s.registry, ?_, ?_⟩
· intro pre k b post e hsplit hpre hb
  have := closeList_first_error pre k b post e hpre hb
  rw [svcClose, hsplit, this]
  exact ⟨rfl, rfl⟩
· intro k hnd
  have h1 := (closeList_trace_sublist s.registry).count_le k
  have h2 := (List.nodup_iff_count_le_one.mp hnd) k
  exact le_trans h1 h2

/-- A backend whose Close fails, used to witness the short-circuit. -/
def failingBackend : Backend :=
⟨fun _ => Except.ok [], fun _ => Except.ok true, fun u => Except.ok ⟨u⟩,
 fun _ => Except.ok "content", fun _ _ => Except.ok (), fun _ => Except.ok (),
 Except.error "close failed"⟩

/-- Witness for C7: with backends a (succeeds), b (fails) and c, Close
returns b's error having closed only a and b. -/
theorem storage_close_semantics_witness :
(svcClose ⟨[("a", memBackend), ("b", failingBackend), ("c", memBackend)]⟩).1
    = Except.error "close failed" ∧
(svcClose ⟨[("a", memBackend), ("b", failingBackend), ("c", memBackend)]⟩).2 = ["a", "b"] := by
have h := (storage_close_semantics
    ⟨[("a", memBackend), ("b", failingBackend), ("c", memBackend)]⟩).2.1
    [("a", memBackend)] "b" failingBackend [("c", memBackend)] "close failed"
    rfl (fun p hp => by rw [List.eq_of_mem_singleton hp]; rfl) rfl
exact ⟨h.1, h.2⟩

/-- Claim C8: looking an unregistered name up in the value-provider
registry panics (the model's left summand) with the failed-to-lookup
message rather than returning an error value, while a registered and
not-overwritten name yields exactly the registered provider and Contains
reports true. -/
theorem vpr_get_semantics :
∀ (α : Type) (r : VPRegistry α) (name n2 : String) (p q : α),
  (vprContains r name = false →
    vprGet r name = Sum.inl (GoPanic.msg ("failed to lookup name: " ++ name))) ∧
  vprGet (vprRegister r name p) name = Sum.inr p ∧
  vprContains (vprRegister r name p) name = true ∧
  (n2 ≠ name → vprGet (vprRegister (vprRegister r name p) n2 q) name = Sum.inr p) := by
intro α r name n2 p q
refine ⟨?_, ?_, ?_, ?_⟩
· intro h
  have hf : assocFind r.registry name = none := by
    cases hf : assocFind r.registry name with
    | some v => simp [vprContains, hf] at h
    | none => rfl
  simp [vprGet, hf]
· simp [vprGet, vprRegister, assocFind_update_self]
· simp [vprContains, vprRegister, assocFind_update_self]
· intro hne
  simp [vprGet, vprRegister, assocFind_update_other _ _ _ _ hne, assocFind_update_self]

/-- Witness for C8 over an empty registry of Nat providers. -/
theorem vpr_get_semantics_witness :
vprGet (⟨[]⟩ : VPRegistry Nat) "a" = Sum.inl (GoPanic.msg "failed to lookup name: a") ∧
vprGet (vprRegister (⟨[]⟩ : VPRegistry Nat) "a" 1) "a" = Sum.inr 1 ∧
vprContains (vprRegister (⟨[]⟩ : VPRegistry Nat) "a" 1) "a" = true ∧
vprGet (vprRegister (vprRegister (⟨[]⟩ : VPRegistry Nat) "a" 1) "b" 2) "a" = Sum.inr 1 := by
have h := vpr_get_semantics Nat ⟨[]⟩ "a" "b" 1 2
exact ⟨h.1 rfl, h.2.1, h.2.2.1, h.2.2.2 (by decide)⟩

/-- Claim C9: Register always returns nil, and the last registration for a
scheme wins: after registering b1 then b2 under the same scheme, scheme
resolution yields b2 and every facade operation on a URL (or object URL)
of that scheme returns b2's result. -/
theorem storage_register_last_wins :
∀ (s : StorageSvc) (scheme : String) (b1 b2 : Backend) (URL content : String) (obj : StObj),
  (svcRegister s scheme b1).2 = none ∧
  (getScheme URL = Except.ok scheme →
    getServiceForSchema (svcRegister (svcRegister s scheme b1).1 scheme b2).1 URL = Except.ok b2 ∧
    svcList (svcRegister (svcRegister s scheme b1).1 scheme b2).1 URL = (b2.listB URL, ["List"]) ∧
    svcExists (svcRegister (svcRegister s scheme b1).1 scheme b2).1 URL
        = (b2.existsB URL, ["Exists"]) ∧
    svcStorageObject (svcRegister (svcRegister s scheme b1).1 scheme b2).1 URL
        = (b2.objectB URL, ["StorageObject"]) ∧
    svcUpload (svcRegister (svcRegister s scheme b1).1 scheme b2).1 URL content
        = (b2.uploadB URL content, ["Upload"])) ∧
  (getScheme obj.url = Except.ok scheme →
    svcDownload (svcRegister (svcRegister s scheme b1).1 scheme b2).1 obj
        = (b2.downloadB obj, ["Download"]) ∧
    svcDelete (svcRegister (svcRegister s scheme b1).1 scheme b2).1 obj
        = (b2.deleteB obj, ["Delete"])) := by
intro s scheme b1 b2 URL content obj
refine ⟨rfl, ?_, ?_⟩
· intro hsch
  have hg : getServiceForSchema (svcRegister (svcRegister s scheme b1).1 scheme b2).1 URL
      = Except.ok b2 := by
    simp [getServiceForSchema, hsch, svcRegister, assocFind_update_self]
  exact ⟨hg, by simp [svcList, hg], by simp [svcExists, hg],
         by simp [svcStorageObject, hg], by simp [svcUpload, hg]⟩
· intro hsch
  have hg : getServiceForSchema (svcRegister (svcRegister s scheme b1).1 scheme b2).1 obj.url
      = Except.ok b2 := by
    simp [getServiceForSchema, hsch, svcRegister, assocFind_update_self]
  exact ⟨by simp [svcDownload, hg], by simp [svcDelete, hg]⟩

/-- Witness for C9: registering memBackend then failingBackend under mem
routes a mem URL to the second registration. -/
theorem storage_register_last_wins_witness :
(svcRegister (⟨[]⟩ : StorageSvc) "mem" memBackend).2 = none ∧
getServiceForSchema
    (svcRegister (svcRegister (⟨[]⟩ : StorageSvc) "mem" memBackend).1 "mem" failingBackend).1
    "mem://x" = Except.ok failingBackend ∧
svcList (svcRegister (svcRegister (⟨[]⟩ : StorageSvc) "mem" memBackend).1 "mem" failingBackend).1
    "mem://x" = (failingBackend.listB "mem://x", ["List"]) := by
have h := storage_register_last_wins ⟨[]⟩ "mem" memBackend failingBackend "mem://x" "" ⟨"mem://x"⟩
exact ⟨h.1, (h.2.1 rfl).1, (h.2.1 rfl).2.1⟩

end Toolbox
